import Mathlib

/-!
Verification of the forensic evidence aggregation and verdict engine of the
payment-screenshot analysis service
(`supabase/functions/analyze-payment/index.ts`).

The embedding follows the source file closely:
* image bytes are `List Nat` (each element one byte of the decoded image);
* strings extracted from the byte header are kept as `List Nat` byte lists
  (the source works on lowercased printable ASCII, so bytes are enough);
* the JavaScript `Map`/`Set` pair used for the evidence ledger becomes an
  association list of insertion-ordered deduplicating lists;
* the base64 decode of the request payload is modelled by an `Option`:
  `none` is the path on which `atob` throws and the `catch` block of
  `analyzeImage` produces the synthetic failure result;
* the network environment of `performAIVisualAnalysis` is modelled by the
  resolved backend list paired with one outcome per backend call.

JavaScript numbers only ever hold integer values in this code, so confidence
is `Int` (deductions may drive it below zero before the final clamp) and all
counters are `Nat`.
-/

namespace PayVerify

/-- Image format detected from magic bytes (`detectImageFormat`). -/
inductive ImageFormat where
  | PNG
  | JPEG
  | UNKNOWN
deriving DecidableEq

/-- Severity of a ledger signal (`EvidenceSeverity` in the source). -/
inductive Severity where
  | warning
  | critical
deriving DecidableEq

/-- Severity of an output finding (`info`, `warning` or `critical`). -/
inductive FindingType where
  | info
  | warning
  | critical
deriving DecidableEq

/-- One output finding: severity plus human-readable message. -/
structure Finding where
  type : FindingType
  message : String
deriving DecidableEq

/-- The `metadata` block of the returned `AnalysisResult`. -/
structure AnalysisMetadata where
  software : Option String
  editingDetected : Bool
  compressionAnomalies : Bool
  metadataInconsistencies : Bool
deriving DecidableEq

/-- The result structure returned to the caller (`AnalysisResult`). -/
structure AnalysisResult where
  authentic : Bool
  confidence : Int
  findings : List Finding
  metadata : AnalysisMetadata
deriving DecidableEq

/-! ## Byte-level scanner (`checkExifPresence`, `detectRecompression`,
`detectImageFormat`, header tokenization) -/

/-- `checkExifPresence`: scan for the JPEG APP1 marker `0xFF 0xE1` followed by
the ASCII literal `Exif` at offset 4 from the marker.  The JS loop reads
indices `i+4 .. i+7`; out-of-range reads are `undefined` and compare false, so
a match needs eight bytes in range. -/
def checkExifPresence : List Nat → Bool
  | a :: b :: c :: d :: e :: f :: g :: h :: rest =>
      (a == 0xFF && b == 0xE1 && e == 0x45 && f == 0x78 && g == 0x69 && h == 0x66)
        || checkExifPresence (b :: c :: d :: e :: f :: g :: h :: rest)
  | _ => false

/-- Number of adjacent `0xFF 0xD8` (JPEG SOI) byte pairs in the buffer. -/
def countJpegMarkers : List Nat → Nat
  | a :: b :: rest => (if a = 0xFF ∧ b = 0xD8 then 1 else 0) + countJpegMarkers (b :: rest)
  | _ => 0

/-- `detectRecompression`: flag when more than two SOI markers appear
(tolerating one embedded thumbnail). -/
def detectRecompression (data : List Nat) : Bool :=
  decide (countJpegMarkers data > 2)

/-- `detectImageFormat`: PNG magic, then JPEG SOI, else UNKNOWN. -/
def detectImageFormat (data : List Nat) : ImageFormat :=
  match data with
  | 0x89 :: 0x50 :: 0x4E :: 0x47 :: _ => .PNG
  | 0xFF :: 0xD8 :: _ => .JPEG
  | _ => .UNKNOWN

/-- ASCII bytes of a Lean string literal; used to transcribe the signature
tables and regex alternatives of the source. -/
def strBytes (s : String) : List Nat :=
  s.data.map Char.toNat

/-- Drop leading and trailing spaces (the only whitespace a printable run can
contain), mirroring `String.prototype.trim` on these runs. -/
def trimSpaces (l : List Nat) : List Nat :=
  ((l.dropWhile (· = 32)).reverse.dropWhile (· = 32)).reverse

/-- Helper for `extractMetadataStrings`: walk the bounded region keeping the
current printable run (accumulated in reverse); flush runs of length ≥ 4. -/
def extractRuns (cur : List Nat) : List Nat → List (List Nat)
  | [] => if cur.length ≥ 4 then [trimSpaces cur.reverse] else []
  | b :: rest =>
      if 32 ≤ b ∧ b ≤ 126 then extractRuns (b :: cur) rest
      else (if cur.length ≥ 4 then [trimSpaces cur.reverse] else []) ++ extractRuns [] rest

/-- `extractMetadataStrings`: printable-ASCII runs of length ≥ 4 from the
first `maxLength` bytes, each trimmed. -/
def extractMetadataStrings (data : List Nat) (maxLength : Nat) : List (List Nat) :=
  extractRuns [] (data.take maxLength)

/-- Collapse runs of spaces to a single space (the `replace` of `\s+` runs; the
only `\s` byte a printable run can contain is 32). -/
def collapseAux (prevSpace : Bool) : List Nat → List Nat
  | [] => []
  | b :: rest =>
      if b = 32 then
        (if prevSpace then collapseAux true rest else 32 :: collapseAux true rest)
      else b :: collapseAux false rest

def collapseSpaces (l : List Nat) : List Nat :=
  collapseAux false l

/-- Lowercase one ASCII byte (`toLowerCase` on the printable range). -/
def toLowerByte (b : Nat) : Nat :=
  if 65 ≤ b ∧ b ≤ 90 then b + 32 else b

/-- `extractHeaderTokens`: normalized (whitespace-collapsed, lowercased)
nonempty tokens from the header region. -/
def extractHeaderTokens (data : List Nat) (maxLength : Nat) : List (List Nat) :=
  ((extractMetadataStrings data maxLength).map
      (fun segment => (collapseSpaces segment).map toLowerByte)).filter
    (fun segment => segment.length > 0)

/-! ## Word-boundary and substring matching

`headerContainsPattern` builds the regex `\b<escaped pattern>\b` and tests
tokens with it.  Every pattern in the two signature tables starts and ends
with a word character, so the boundary tests reduce to: the byte before the
match (if any) is not a word character, and the byte after the match (if any)
is not a word character.  `escapeRegExp` makes every pattern byte literal,
which plain byte equality already is. -/

/-- JS regex word characters `[A-Za-z0-9_]`. -/
def isWordByte (b : Nat) : Bool :=
  (48 ≤ b && b ≤ 57) || (65 ≤ b && b ≤ 90) || (97 ≤ b && b ≤ 122) || b == 95

/-- The pattern matches at the head of `text` and is followed by a word
boundary. -/
def matchHere (pat : List Nat) (text : List Nat) : Bool :=
  match pat, text with
  | [], [] => true
  | [], t :: _ => !isWordByte t
  | p :: ps, t :: ts => p == t && matchHere ps ts
  | _ :: _, [] => false

/-- Scan `text` for a word-boundary match of `pat`; `prevWord` records
whether the previous byte was a word character. -/
def boundaryMatchAux (pat : List Nat) (prevWord : Bool) : List Nat → Bool
  | [] => !prevWord && matchHere pat []
  | t :: ts => (!prevWord && matchHere pat (t :: ts)) || boundaryMatchAux pat (isWordByte t) ts

/-- `new RegExp("\\b" + escapeRegExp(p) + "\\b").test(text)` for the
word-initial, word-final patterns of the signature tables. -/
def boundaryTest (pat : List Nat) (text : List Nat) : Bool :=
  boundaryMatchAux pat false text

/-- `startsWithBytes pat text`: `text` begins with `pat`. -/
def startsWithBytes : List Nat → List Nat → Bool
  | [], _ => true
  | _ :: _, [] => false
  | p :: ps, t :: ts => p == t && startsWithBytes ps ts

/-- Plain substring containment, the meaning of `/(a|b|c)/.test(token)` for
one alternative. -/
def containsBytes (pat : List Nat) : List Nat → Bool
  | [] => startsWithBytes pat []
  | t :: ts => startsWithBytes pat (t :: ts) || containsBytes pat ts

/-- `/(p1|p2|...)/i.test(token)`: some alternative occurs in the token
(tokens and alternatives are already lowercase). -/
def matchesAnyOf (pats : List (List Nat)) (text : List Nat) : Bool :=
  pats.any (fun p => containsBytes p text)

/-- `tokens.join` with a single space separator. -/
def joinWithSpace : List (List Nat) → List Nat
  | [] => []
  | [t] => t
  | t :: u :: rest => t ++ 32 :: joinWithSpace (u :: rest)

/-- `headerContainsPattern`: whole-word match against each token, and for
multi-word patterns also against the space-joined token stream. -/
def headerContainsPattern (tokens : List (List Nat)) (pattern : List Nat) : Bool :=
  let normalizedPattern := pattern.map toLowerByte
  tokens.any (fun token => boundaryTest normalizedPattern token)
    || (normalizedPattern.contains 32 && boundaryTest normalizedPattern (joinWithSpace tokens))

/-! ## Signature detectors (`detectEditingSoftware`, `detectAppSignatures`,
`analyzePNG`, `analyzeJPEG`) -/

/-- The metadata-context filter of `detectEditingSoftware`:
`/(software|application|producer|creator|generator|rendered|modified)/i`. -/
def metadataContextAlternatives : List (List Nat) :=
  [strBytes "software", strBytes "application", strBytes "producer", strBytes "creator",
   strBytes "generator", strBytes "rendered", strBytes "modified"]

/-- The metadata-context filter of `detectAppSignatures`, which additionally
also lets through tokens containing `app`. -/
def appContextAlternatives : List (List Nat) :=
  metadataContextAlternatives ++ [strBytes "app"]

/-- The editing-software signature table (name, patterns). -/
def softwareSignatureTable : List (String × List (List Nat)) :=
  [("Photoshop", [strBytes "adobe photoshop", strBytes "photoshop", strBytes "phoshop"]),
   ("GIMP", [strBytes "gimp"]),
   ("Canva", [strBytes "canva"]),
   ("Pixlr", [strBytes "pixlr"]),
   ("Paint.NET", [strBytes "paint.net"]),
   ("Affinity", [strBytes "affinity photo", strBytes "affinity"]),
   ("Sketch", [strBytes "sketch"])]

/-- The editing-app signature table (name, single pattern). -/
def appSignatureTable : List (String × List Nat) :=
  [("Snapseed", strBytes "snapseed"),
   ("Instagram", strBytes "instagram"),
   ("PicsArt", strBytes "picsart"),
   ("Lightroom", strBytes "lightroom"),
   ("Facetune", strBytes "facetune")]

/-- `[...new Set(list)]`: deduplicate keeping first occurrences in insertion
order. -/
def dedupKeepFirst (seen : List String) : List String → List String
  | [] => []
  | x :: xs => if x ∈ seen then dedupKeepFirst seen xs else x :: dedupKeepFirst (x :: seen) xs

/-- `detectEditingSoftware`: names whose pattern list has a whole-word match
among the metadata-context tokens of the 8 KiB header region. -/
def detectEditingSoftware (data : List Nat) : List String :=
  let headerTokens := extractHeaderTokens data 8192
  let metadataTokens := headerTokens.filter (fun token => matchesAnyOf metadataContextAlternatives token)
  dedupKeepFirst []
    ((softwareSignatureTable.filter
        (fun sig => sig.2.any (fun pattern => headerContainsPattern metadataTokens pattern))).map
      (fun sig => sig.1))

/-- `detectAppSignatures`: app names with a whole-word match among the
app-context tokens. -/
def detectAppSignatures (data : List Nat) : List String :=
  let headerTokens := extractHeaderTokens data 8192
  let metadataTokens := headerTokens.filter (fun token => matchesAnyOf appContextAlternatives token)
  (appSignatureTable.filter
      (fun app => headerContainsPattern metadataTokens app.2)).map
    (fun app => app.1)

/-- `analyzePNG` (returns its `suspicious` field): editing-tool token present
among metadata-context tokens of the 16 KiB region, and no benign
device/screenshot token anywhere in the tokens. -/
def analyzePNG (data : List Nat) : Bool :=
  let tokens := extractHeaderTokens data 16384
  let metadataTokens := tokens.filter (fun token =>
    matchesAnyOf [strBytes "software", strBytes "application", strBytes "creator", strBytes "producer"] token)
  let benignDeviceTokens := tokens.any (fun token =>
    matchesAnyOf [strBytes "iphone", strBytes "ios", strBytes "ipad", strBytes "apple",
      strBytes "screen capture", strBytes "screenshot"] token)
  let editingHits := metadataTokens.any (fun token =>
    matchesAnyOf [strBytes "photoshop", strBytes "gimp", strBytes "canva", strBytes "snapseed",
      strBytes "instagram", strBytes "picsart", strBytes "lightroom", strBytes "facetune"] token)
  editingHits && !benignDeviceTokens

/-- ASCII digit test (`\d`). -/
def isDigitByte (b : Nat) : Bool :=
  48 ≤ b && b ≤ 57

/-- Value of the greedy 1–3 digit capture `(\d{1,3})` read from the head of
`l`, after which `parseInt` is applied; `none` when no digit is present. -/
def leadingDigitsValue (l : List Nat) : Option Nat :=
  match (l.takeWhile isDigitByte).take 3 with
  | [] => none
  | ds => some (ds.foldl (fun acc d => 10 * acc + (d - 48)) 0)

/-- After the literal `quality`, the regex `[:=]?\s*(\d{1,3})` consumes an
optional colon or equals sign, then spaces, then requires digits; the
backtracking alternatives of the optional group cannot succeed when this
fails, because a colon, equals sign or space is not a digit. -/
def parseQualitySuffix (l : List Nat) : Option Nat :=
  let afterSep := match l with
    | b :: rest => if b = 58 ∨ b = 61 then rest else l
    | [] => l
  leadingDigitsValue (afterSep.dropWhile (· = 32))

/-- Leftmost match of `\bquality[:=]?\s*(\d{1,3})` in a token, returning the
parsed capture.  When the suffix fails to parse at one occurrence of
`quality`, the regex engine resumes the scan one byte further on, which the
recursion mirrors. -/
def findQualityValue (prevWord : Bool) : List Nat → Option Nat
  | [] => none
  | b :: rest =>
      match (if !prevWord && startsWithBytes (strBytes "quality") (b :: rest) then
              parseQualitySuffix ((b :: rest).drop 7)
            else none) with
      | some v => some v
      | none => findQualityValue (isWordByte b) rest

/-- The numeric quality values extracted from the header tokens
(`token.match(/\bquality[:=]?\s*(\d{1,3})/i)` mapped over the tokens). -/
def jpegQualityValues (data : List Nat) : List Nat :=
  (extractHeaderTokens data 16384).filterMap (fun token => findQualityValue false token)

/-- `new Set(values).size`: number of distinct elements. -/
def distinctCount : List Nat → Nat
  | [] => 0
  | x :: xs => (if x ∈ xs then 0 else 1) + distinctCount xs

/-- `analyzeJPEG` (returns its `qualityInconsistent` field): more than one
distinct quality value among more than one extracted value. -/
def analyzeJPEG (data : List Nat) : Bool :=
  let qualityValues := jpegQualityValues data
  decide (distinctCount qualityValues > 1) && decide (qualityValues.length > 1)

/-! ## Evidence ledger

`evidenceByCategory` is a `Map<string, { warning: Set<string>; critical:
Set<string> }>`; the embedding keeps it as an association list in insertion
order, with each `Set` an insertion-ordered duplicate-free list.  The running
`riskScore` is carried alongside, as in `analyzeImage`. -/

/-- The per-category pair of signal sets. -/
structure EvidenceEntry where
  warning : List String
  critical : List String
deriving DecidableEq

/-- The evidence ledger: category map plus accumulated risk score. -/
structure Ledger where
  entries : List (String × EvidenceEntry)
  riskScore : Nat
deriving DecidableEq

/-- The `severityWeights` table, with its `default` fallback for categories
outside the four named ones; the pair is (warning weight, critical weight). -/
def severityWeights (category : String) : Nat × Nat :=
  if category = "metadata" then (6, 14)
  else if category = "compression" then (10, 18)
  else if category = "format" then (8, 16)
  else if category = "ai" then (12, 25)
  else (6, 14)

/-- `categoryWeights[severity]`. -/
def weightFor (category : String) : Severity → Nat
  | .warning => (severityWeights category).1
  | .critical => (severityWeights category).2

/-- `Set.add`: append when absent, keep insertion order. -/
def insertNew (s : String) (l : List String) : List String :=
  if s ∈ l then l else l ++ [s]

/-- `evidenceByCategory.get(category)` (first entry with the key). -/
def getEntry (category : String) : List (String × EvidenceEntry) → Option EvidenceEntry
  | [] => none
  | (c, e) :: rest => if c = category then some e else getEntry category rest

/-- `evidenceByCategory.set(category, entry)`: replace in place, or append a
new key at the end. -/
def setEntry (category : String) (e : EvidenceEntry) :
    List (String × EvidenceEntry) → List (String × EvidenceEntry)
  | [] => [(category, e)]
  | (c, e0) :: rest =>
      if c = category then (category, e) :: rest else (c, e0) :: setEntry category e rest

/-- `entry[severity].add(signal)`. -/
def addSignal (e : EvidenceEntry) (signal : String) : Severity → EvidenceEntry
  | .warning => { e with warning := insertNew signal e.warning }
  | .critical => { e with critical := insertNew signal e.critical }

/-- `addEvidence(category, signal, severity)`: update the entry and add the
category-by-severity weight to the risk score. -/
def addEvidence (st : Ledger) (category signal : String) (severity : Severity) : Ledger :=
  let entry := (getEntry category st.entries).getD ⟨[], []⟩
  { entries := setEntry category (addSignal entry signal severity) st.entries,
    riskScore := st.riskScore + weightFor category severity }

/-- `getCategoryCount(severity?)`: number of categories with evidence at the
given severity (or at either severity when `none`). -/
def getCategoryCount (st : Ledger) : Option Severity → Nat
  | none =>
      (st.entries.filter (fun p =>
        decide (0 < p.2.warning.length) || decide (0 < p.2.critical.length))).length
  | some .warning => (st.entries.filter (fun p => decide (0 < p.2.warning.length))).length
  | some .critical => (st.entries.filter (fun p => decide (0 < p.2.critical.length))).length

/-- `getEvidenceCount(severity)`: total signal count at the severity. -/
def getEvidenceCount (st : Ledger) : Severity → Nat
  | .warning => (st.entries.map (fun p => p.2.warning.length)).sum
  | .critical => (st.entries.map (fun p => p.2.critical.length)).sum

/-- `evidenceByCategory.has(category)`. -/
def hasCategory (st : Ledger) (category : String) : Bool :=
  st.entries.any (fun p => p.1 == category)

/-- The critical-signal count of the `ai` category, zero when absent. -/
def aiCriticalCount (st : Ledger) : Nat :=
  match getEntry "ai" st.entries with
  | some e => e.critical.length
  | none => 0

/-! ## Backend orchestrator (`performAIVisualAnalysis`)

The orchestrator loops over the configured backend models.  Each iteration
can end in one of five ways, which the `BackendOutcome` of the call models:

* `throwsNetwork` — `fetch` (or `response.json()`) rejects; the exception
  propagates to the `try`/`catch` wrapping the whole loop, so the function
  returns `null` and the remaining backends are never called;
* `httpError` — `!response.ok`, the loop `continue`s;
* `noContent` — no `choices[0].message.content`, the loop `continue`s;
* `unparsable` — no JSON object in the content or `JSON.parse` throws, the
  loop moves on;
* `ok a` — the parsed per-category JSON object.

A parsed object maps each of the six categories to a string or `null`
(`none`); values of other JSON types fail the string type check exactly as
`none` does. -/

/-- The six AI finding categories. -/
inductive AIFindingKey where
  | clonedRegions
  | lightingInconsistencies
  | pixelManipulation
  | fontInconsistencies
  | colorAnomalies
  | artificialElements
deriving DecidableEq

/-- The fixed iteration order of the six keys (`keys` in the source). -/
def aiKeys : List AIFindingKey :=
  [.clonedRegions, .lightingInconsistencies, .pixelManipulation,
   .fontInconsistencies, .colorAnomalies, .artificialElements]

/-- The JSON string key of a category. -/
def aiKeyName : AIFindingKey → String
  | .clonedRegions => "clonedRegions"
  | .lightingInconsistencies => "lightingInconsistencies"
  | .pixelManipulation => "pixelManipulation"
  | .fontInconsistencies => "fontInconsistencies"
  | .colorAnomalies => "colorAnomalies"
  | .artificialElements => "artificialElements"

/-- One backend response parsed into the six-key shape. -/
structure BackendAnalysis where
  clonedRegions : Option String
  lightingInconsistencies : Option String
  pixelManipulation : Option String
  fontInconsistencies : Option String
  colorAnomalies : Option String
  artificialElements : Option String
deriving DecidableEq

/-- Field access `analysis[key]`. -/
def BackendAnalysis.get (a : BackendAnalysis) : AIFindingKey → Option String
  | .clonedRegions => a.clonedRegions
  | .lightingInconsistencies => a.lightingInconsistencies
  | .pixelManipulation => a.pixelManipulation
  | .fontInconsistencies => a.fontInconsistencies
  | .colorAnomalies => a.colorAnomalies
  | .artificialElements => a.artificialElements

/-- Outcome of one backend call, see the section comment. -/
inductive BackendOutcome where
  | throwsNetwork
  | httpError
  | noContent
  | unparsable
  | ok (analysis : BackendAnalysis)
deriving DecidableEq

/-- `true` exactly for successfully parsed backends. -/
def outcomeIsOk : BackendOutcome → Bool
  | .ok _ => true
  | _ => false

/-- The merged record for one category: joined description plus the backends
that reported it (`AggregatedAIFinding`). -/
structure AggregatedAIFinding where
  description : String
  models : List String
deriving DecidableEq

/-- The merged analysis (`AIVisualAnalysis`, a record of optional entries,
one per key). -/
structure AIVisualAnalysis where
  clonedRegions : Option AggregatedAIFinding
  lightingInconsistencies : Option AggregatedAIFinding
  pixelManipulation : Option AggregatedAIFinding
  fontInconsistencies : Option AggregatedAIFinding
  colorAnomalies : Option AggregatedAIFinding
  artificialElements : Option AggregatedAIFinding
deriving DecidableEq

/-- Field access `merged[key]`. -/
def AIVisualAnalysis.get (a : AIVisualAnalysis) : AIFindingKey → Option AggregatedAIFinding
  | .clonedRegions => a.clonedRegions
  | .lightingInconsistencies => a.lightingInconsistencies
  | .pixelManipulation => a.pixelManipulation
  | .fontInconsistencies => a.fontInconsistencies
  | .colorAnomalies => a.colorAnomalies
  | .artificialElements => a.artificialElements

/-- JS whitespace trimmed by `String.prototype.trim` restricted to the
characters that occur here: space, tab, line feed, carriage return. -/
def isWSChar (c : Char) : Bool :=
  c.toNat == 32 || c.toNat == 9 || c.toNat == 10 || c.toNat == 13

/-- `value.trim()`. -/
def trimStr (s : String) : String :=
  ⟨((s.data.dropWhile isWSChar).reverse.dropWhile isWSChar).reverse⟩

/-- The model loop: push each parsed analysis; skip `continue` outcomes; a
thrown outcome aborts the whole function through the outer `catch`, which
`none` records. -/
def collectAnalyses : List (String × BackendOutcome) → Option (List (String × BackendAnalysis))
  | [] => some []
  | (model, outcome) :: rest =>
      match outcome with
      | .throwsNetwork => none
      | .httpError => collectAnalyses rest
      | .noContent => collectAnalyses rest
      | .unparsable => collectAnalyses rest
      | .ok a => (collectAnalyses rest).map (fun l => (model, a) :: l)

/-- The successfully parsed backends of a configuration, in call order. -/
def okAnalyses (backends : List (String × BackendOutcome)) : List (String × BackendAnalysis) :=
  backends.filterMap (fun p =>
    match p.2 with
    | .ok a => some (p.1, a)
    | _ => none)

/-- Accumulate (trimmed description set, model set) for one category over the
parsed analyses, in encounter order. -/
def collectFor (key : AIFindingKey) (analyses : List (String × BackendAnalysis)) :
    List String × List String :=
  analyses.foldl
    (fun acc p =>
      match p.2.get key with
      | some v =>
          if 0 < (trimStr v).length then (insertNew (trimStr v) acc.1, insertNew p.1 acc.2)
          else acc
      | none => acc)
    ([], [])

/-- The merged record for one category: present only when some backend
reported nonempty content; descriptions joined with a separator. -/
def mergedFor (key : AIFindingKey) (analyses : List (String × BackendAnalysis)) :
    Option AggregatedAIFinding :=
  let c := collectFor key analyses
  if 0 < c.1.length then some ⟨String.intercalate " | " c.1, c.2⟩ else none

/-- The six-field merge (`merged` in the source, built in `aiKeys` order). -/
def mergeAnalyses (analyses : List (String × BackendAnalysis)) : AIVisualAnalysis :=
  ⟨mergedFor .clonedRegions analyses,
   mergedFor .lightingInconsistencies analyses,
   mergedFor .pixelManipulation analyses,
   mergedFor .fontInconsistencies analyses,
   mergedFor .colorAnomalies analyses,
   mergedFor .artificialElements analyses⟩

/-- `Object.keys(merged).length`. -/
def presentCount (a : AIVisualAnalysis) : Nat :=
  (aiKeys.filterMap (fun k => a.get k)).length

/-- `performAIVisualAnalysis`: `null` without a credential; run the model
loop; `null` when no backend parsed or when the merge is empty. -/
def performAIVisualAnalysis (apiKeyPresent : Bool)
    (backends : List (String × BackendOutcome)) : Option AIVisualAnalysis :=
  if !apiKeyPresent then none
  else
    match collectAnalyses backends with
    | none => none
    | some modelAnalyses =>
        if modelAnalyses.length = 0 then none
        else
          let merged := mergeAnalyses modelAnalyses
          if 0 < presentCount merged then some merged else none

/-! ## The analysis pipeline (`analyzeImage`)

The mutable locals of `analyzeImage` (`findings`, `confidence`,
`editingSoftware`, `editingDetected`, `compressionAnomalies`,
`metadataInconsistencies`, `jpegQualityInconsistent`, the ledger, and the
phase-2 local `highConfidenceAICritical`) become one state record threaded
through the check blocks in source order. -/

structure AnalysisState where
  findings : List Finding
  confidence : Int
  editingSoftware : Option String
  editingDetected : Bool
  compressionAnomalies : Bool
  metadataInconsistencies : Bool
  jpegQualityInconsistent : Bool
  ledger : Ledger
  highConfidenceAICritical : Bool
deriving DecidableEq

/-- The initial values of the locals. -/
def initialState : AnalysisState :=
  ⟨[], 100, none, false, false, false, false, ⟨[], 0⟩, false⟩

def exifMissingMessage : String :=
  "No EXIF data found in JPEG. This can indicate metadata stripping from re-saving or editing."

def recompressionMessage : String :=
  "Multiple compression signatures detected. Image appears to have been saved multiple times, suggesting possible editing."

def pngSuspiciousMessage : String :=
  "PNG metadata suggests possible screenshot conversion or editing."

def jpegQualityMessage : String :=
  "JPEG quality levels are inconsistent across the image, indicating selective editing or manipulation."

def stackedCompressionMessage : String :=
  "Multiple JPEG saves combined with shifting quality levels strongly suggest composite editing."

def noIssuesMessage : String :=
  "No signs of manipulation detected through forensic or AI analysis. Image appears to be an original screenshot."

def analysisFailedMessage : String :=
  "Failed to analyze image properly. File may be corrupted or in an unsupported format."

/-- The finding type pushed for a signal of the given severity. -/
def findingTypeOf : Severity → FindingType
  | .warning => .warning
  | .critical => .critical

/-- EXIF block: only a JPEG without EXIF is penalized; note that no ledger
signal is recorded here, only the `metadataInconsistencies` flag. -/
def exifStep (format : ImageFormat) (hasExif : Bool) (st : AnalysisState) : AnalysisState :=
  if format = .JPEG ∧ hasExif = false then
    { st with
      findings := st.findings ++ [⟨.warning, exifMissingMessage⟩],
      confidence := st.confidence - 10,
      metadataInconsistencies := true }
  else st

/-- Editing-software block: severity escalated to critical under strong
metadata evidence (more than one distinct name across both tables). -/
def softwareStep (softwareSignatures : List String) (strongMetadataEvidence : Bool)
    (st : AnalysisState) : AnalysisState :=
  if 0 < softwareSignatures.length then
    let editingSoftware := String.intercalate ", " softwareSignatures
    let severity : Severity := if strongMetadataEvidence then .critical else .warning
    let st1 := { st with
      editingSoftware := some editingSoftware,
      findings := st.findings ++
        [Finding.mk (findingTypeOf severity)
          ("Editing software detected in metadata: " ++ editingSoftware ++ ".")] }
    if severity = .critical then
      { st1 with
        editingDetected := true,
        confidence := st1.confidence - 30,
        ledger := addEvidence st1.ledger "metadata" "editing-software" .critical }
    else
      { st1 with
        confidence := st1.confidence - 8,
        ledger := addEvidence st1.ledger "metadata" "editing-software" .warning }
  else st

/-- Recompression block; not gated on the detected format. -/
def recompressionStep (recompressionDetected : Bool) (st : AnalysisState) : AnalysisState :=
  if recompressionDetected then
    { st with
      compressionAnomalies := true,
      findings := st.findings ++ [⟨.warning, recompressionMessage⟩],
      confidence := st.confidence - 15,
      ledger := addEvidence st.ledger "compression" "recompression" .warning }
  else st

/-- Format-specific block: PNG metadata heuristic, or JPEG quality
inconsistency. -/
def formatSpecificStep (format : ImageFormat) (data : List Nat) (st : AnalysisState) :
    AnalysisState :=
  if format = .PNG then
    if analyzePNG data then
      { st with
        findings := st.findings ++ [⟨.warning, pngSuspiciousMessage⟩],
        confidence := st.confidence - 10,
        ledger := addEvidence st.ledger "format" "png-metadata" .warning }
    else st
  else if format = .JPEG then
    if analyzeJPEG data then
      { st with
        compressionAnomalies := true,
        jpegQualityInconsistent := true,
        findings := st.findings ++ [⟨.critical, jpegQualityMessage⟩],
        confidence := st.confidence - 25,
        ledger := addEvidence st.ledger "compression" "quality" .critical }
    else st
  else st

/-- Stacked compression block: only on a JPEG with both recompression and
quality inconsistency. -/
def stackedStep (format : ImageFormat) (recompressionDetected : Bool) (st : AnalysisState) :
    AnalysisState :=
  if format = .JPEG ∧ recompressionDetected = true ∧ st.jpegQualityInconsistent = true then
    { st with
      findings := st.findings ++ [⟨.critical, stackedCompressionMessage⟩],
      confidence := st.confidence - 18,
      ledger := addEvidence st.ledger "compression" "stacked-compression-signals" .critical }
  else st

/-- Editing-app block, the counterpart of `softwareStep` for the app table. -/
def appSignatureStep (appSignatures : List String) (strongMetadataEvidence : Bool)
    (st : AnalysisState) : AnalysisState :=
  if 0 < appSignatures.length then
    let severity : Severity := if strongMetadataEvidence then .critical else .warning
    let st1 := { st with
      findings := st.findings ++
        [Finding.mk (findingTypeOf severity)
          ("Detected traces of editing apps in metadata: " ++ String.intercalate ", " appSignatures ++ ".")] }
    if severity = .critical then
      { st1 with
        editingDetected := true,
        confidence := st1.confidence - 25,
        ledger := addEvidence st1.ledger "metadata" "app-signature" .critical }
    else
      { st1 with
        confidence := st1.confidence - 6,
        ledger := addEvidence st1.ledger "metadata" "app-signature" .warning }
  else st

/-- `strongMetadataEvidence` as computed once in `analyzeImage`. -/
def strongMetadata (data : List Nat) : Bool :=
  decide (1 < (detectEditingSoftware data).length + (detectAppSignatures data).length)

/-- Phase 1 of `analyzeImage`: the binary forensic checks in source order. -/
def scanPhase (binaryData : List Nat) : AnalysisState :=
  let format := detectImageFormat binaryData
  let hasExif := checkExifPresence binaryData
  let softwareSignatures := detectEditingSoftware binaryData
  let appSignatures := detectAppSignatures binaryData
  let strongMetadataEvidence := strongMetadata binaryData
  let recompressionDetected := detectRecompression binaryData
  appSignatureStep appSignatures strongMetadataEvidence
    (stackedStep format recompressionDetected
      (formatSpecificStep format binaryData
        (recompressionStep recompressionDetected
          (softwareStep softwareSignatures strongMetadataEvidence
            (exifStep format hasExif initialState)))))

/-- Intrinsic base severity per AI category (`baseSeverity`). -/
def baseSeverity : AIFindingKey → Severity
  | .clonedRegions => .critical
  | .lightingInconsistencies => .critical
  | .pixelManipulation => .critical
  | .fontInconsistencies => .warning
  | .colorAnomalies => .warning
  | .artificialElements => .warning

/-- Per-category (warning, critical) confidence penalties (`penaltyMap`). -/
def penaltyMap : AIFindingKey → Int × Int
  | .clonedRegions => (18, 35)
  | .lightingInconsistencies => (15, 30)
  | .pixelManipulation => (20, 40)
  | .fontInconsistencies => (12, 18)
  | .colorAnomalies => (10, 16)
  | .artificialElements => (6, 12)

/-- The per-category finding message (`messages[key]`). -/
def aiMessage (key : AIFindingKey) (description supportNote : String) : String :=
  match key with
  | .clonedRegions =>
      "AI detected cloned/copied regions: " ++ description ++ "." ++ supportNote ++
        " This indicates copy-paste manipulation."
  | .lightingInconsistencies =>
      "Lighting inconsistencies detected: " ++ description ++ "." ++ supportNote ++
        " Different parts of the image have inconsistent illumination."
  | .pixelManipulation =>
      "Pixel-level manipulation detected: " ++ description ++ "." ++ supportNote ++
        " Text or numbers appear to have been altered."
  | .fontInconsistencies =>
      "Font inconsistencies detected: " ++ description ++ "." ++ supportNote ++
        " Text rendering appears unnatural."
  | .colorAnomalies =>
      "Color anomalies detected: " ++ description ++ "." ++ supportNote ++
        " Color distribution is inconsistent with authentic screenshots."
  | .artificialElements =>
      "Possible artificial elements: " ++ description ++ "." ++ supportNote

/-- One iteration of the merged-AI loop body. -/
def aiStep (st : AnalysisState) (key : AIFindingKey) (detail : AggregatedAIFinding) :
    AnalysisState :=
  let supportedModels := detail.models.length
  let base := baseSeverity key
  let severity : Severity := if supportedModels ≥ 2 then base else .warning
  let penalties := penaltyMap key
  let penalty : Int := if severity = .critical then penalties.2 else penalties.1
  let supportNote : String :=
    if 0 < detail.models.length then
      " (models: " ++ String.intercalate ", " detail.models ++ ")"
    else ""
  let st1 := { st with
    findings := st.findings ++
      [Finding.mk (if severity = Severity.critical ∧ base = Severity.critical then .critical else .warning)
        (aiMessage key detail.description supportNote)],
    confidence := st.confidence - penalty }
  if base = .critical ∧ severity = .critical then
    { st1 with
      editingDetected := true,
      ledger := addEvidence st1.ledger "ai" (aiKeyName key) .critical,
      highConfidenceAICritical := st1.highConfidenceAICritical || decide (supportedModels ≥ 2) }
  else
    { st1 with ledger := addEvidence st1.ledger "ai" (aiKeyName key) .warning }

/-- The `Object.entries(aiAnalysis)` sequence: present keys in `aiKeys`
(insertion) order. -/
def aiEntries (a : AIVisualAnalysis) : List (AIFindingKey × AggregatedAIFinding) :=
  aiKeys.filterMap (fun k => (a.get k).map (fun d => (k, d)))

/-- Phase 2 of `analyzeImage`: fold the loop body over the merged entries;
a `null` analysis leaves the state untouched. -/
def aiPhase (st : AnalysisState) : Option AIVisualAnalysis → AnalysisState
  | none => st
  | some a => (aiEntries a).foldl (fun s p => aiStep s p.1 p.2) st

/-- `nonMetadataCategoriesWithEvidence` (the `Math.max(0, · - 1)` is `Nat`
truncated subtraction). -/
def nonMetadataCategories (ledger : Ledger) : Nat :=
  if hasCategory ledger "metadata" then getCategoryCount ledger none - 1
  else getCategoryCount ledger none

/-- The `editingLikely` decision of lines 307–342, as a function of the
completed ledger and the high-confidence-AI flag. -/
def computeEditingLikely (ledger : Ledger) (highConfidenceAICritical : Bool) : Bool :=
  let totalCriticalEvidence := getEvidenceCount ledger .critical
  let totalWarningEvidence := getEvidenceCount ledger .warning
  let categoriesWithEvidence := getCategoryCount ledger none
  let categoriesWithCritical := getCategoryCount ledger (some .critical)
  let nonMetadataCategoriesWithEvidence := nonMetadataCategories ledger
  let aiCriticalPresent := decide (0 < aiCriticalCount ledger)
  let multiCategorySupport :=
    decide (categoriesWithEvidence ≥ 2) && decide (nonMetadataCategoriesWithEvidence ≥ 1)
  let multiCriticalCategories :=
    decide (categoriesWithCritical ≥ 2) && decide (nonMetadataCategoriesWithEvidence ≥ 1)
  let aiRequiresSupport :=
    aiCriticalPresent && (decide (categoriesWithEvidence ≥ 2) || decide (totalWarningEvidence ≥ 1))
  let criticalSupported :=
    multiCriticalCategories
      || (decide (totalCriticalEvidence ≥ 2) && multiCategorySupport)
      || (aiCriticalPresent && aiRequiresSupport)
      || (decide (totalCriticalEvidence ≥ 1) && decide (totalWarningEvidence ≥ 2) && multiCategorySupport)
  let warningCluster :=
    decide (totalWarningEvidence ≥ 3) && multiCategorySupport
      && decide (ledger.riskScore ≥ 35) && decide (nonMetadataCategoriesWithEvidence ≥ 1)
  let strongSingleCategoryCritical :=
    decide (categoriesWithCritical = 1) && decide (totalCriticalEvidence ≥ 2)
      && decide (ledger.riskScore ≥ 40)
  let riskAdjustedCritical := criticalSupported && decide (ledger.riskScore ≥ 30)
  riskAdjustedCritical
    || strongSingleCategoryCritical
    || (highConfidenceAICritical && decide (ledger.riskScore ≥ 30))
    || (warningCluster && decide (ledger.riskScore ≥ 50))

/-- The verdict engine of lines 304–384: decide `editingLikely`, clamp and
floor the confidence, re-derive authenticity, realign `editingDetected`, and
append the synthetic informational finding on a clean pass. -/
def verdictPhase (st : AnalysisState) : AnalysisResult :=
  let editingLikely := computeEditingLikely st.ledger st.highConfidenceAICritical
  let authenticityThreshold : Int := if editingLikely then 72 else 60
  let confidence1 : Int := max 0 (min 100 st.confidence)
  let warningOnly :=
    !(decide (0 < aiCriticalCount st.ledger)) && decide (getEvidenceCount st.ledger .critical = 0)
  let confidence2 : Int :=
    if !editingLikely && warningOnly then
      (if 100 - confidence1 > 35 then 100 - 35 else confidence1)
    else confidence1
  let authentic := !editingLikely && decide (confidence2 ≥ authenticityThreshold)
  let findings :=
    if authentic && decide (st.findings.length = 0) then
      st.findings ++ [⟨.info, noIssuesMessage⟩]
    else st.findings
  { authentic := authentic,
    confidence := confidence2,
    findings := findings,
    metadata :=
      { software := st.editingSoftware,
        editingDetected := editingLikely,
        compressionAnomalies := st.compressionAnomalies,
        metadataInconsistencies := st.metadataInconsistencies } }

/-- `analyzeImage`.  `decoded` is the result of the base64 decode of the
request payload: `none` is the path on which decoding throws and the `catch`
block returns the synthetic failure result (no other statement in the `try`
can throw: the scanner is total and `performAIVisualAnalysis` catches its own
errors).  `apiKeyPresent` and `backends` model the gateway credential and the
configured backends with their call outcomes. -/
def analyzeImage (decoded : Option (List Nat)) (apiKeyPresent : Bool)
    (backends : List (String × BackendOutcome)) : AnalysisResult :=
  match decoded with
  | some binaryData =>
      verdictPhase
        (aiPhase (scanPhase binaryData) (performAIVisualAnalysis apiKeyPresent backends))
  | none =>
      { authentic := false,
        confidence := 0,
        findings := [⟨.critical, analysisFailedMessage⟩],
        metadata :=
          { software := none,
            editingDetected := false,
            compressionAnomalies := false,
            metadataInconsistencies := true } }

/-! ## Reachable ledger states

Every `addEvidence` call site in `analyzeImage` uses one of the following
(category, signal, severity) triples; a reachable ledger state is the fold of
`addEvidence` over some sequence of them. -/

def emittableSignals : List (String × String × Severity) :=
  [("metadata", "editing-software", .critical), ("metadata", "editing-software", .warning),
   ("compression", "recompression", .warning),
   ("format", "png-metadata", .warning),
   ("compression", "quality", .critical),
   ("compression", "stacked-compression-signals", .critical),
   ("metadata", "app-signature", .critical), ("metadata", "app-signature", .warning),
   ("ai", "clonedRegions", .critical), ("ai", "lightingInconsistencies", .critical),
   ("ai", "pixelManipulation", .critical),
   ("ai", "clonedRegions", .warning), ("ai", "lightingInconsistencies", .warning),
   ("ai", "pixelManipulation", .warning), ("ai", "fontInconsistencies", .warning),
   ("ai", "colorAnomalies", .warning), ("ai", "artificialElements", .warning)]

/-- Fold a sequence of `addEvidence` calls over the empty ledger. -/
def buildLedger (calls : List (String × String × Severity)) : Ledger :=
  calls.foldl (fun st c => addEvidence st c.1 c.2.1 c.2.2) ⟨[], 0⟩

/-- Lower bound witness for the risk score: the critical weight of every
category that holds critical evidence. -/
def critWeightSum (entries : List (String × EvidenceEntry)) : Nat :=
  (entries.map (fun p => if 0 < p.2.critical.length then (severityWeights p.1).2 else 0)).sum

/-- The four category names used by `analyzeImage`. -/
def isNamedCategory (c : String) : Prop :=
  c = "metadata" ∨ c = "compression" ∨ c = "format" ∨ c = "ai"

/-- Invariant of ledgers reachable by `addEvidence` from the empty ledger
with the categories of `analyzeImage`: keys are distinct named categories and
the risk score dominates the per-category critical weights. -/
def LedgerInv (st : Ledger) : Prop :=
  (st.entries.map Prod.fst).Nodup ∧
    (∀ c ∈ st.entries.map Prod.fst, isNamedCategory c) ∧
    critWeightSum st.entries ≤ st.riskScore

/-- Whether the `metadata` category holds critical evidence. -/
def metadataHasCritical (entries : List (String × EvidenceEntry)) : Bool :=
  entries.any (fun p => p.1 == "metadata" && decide (0 < p.2.critical.length))

/-! ## Concrete inputs used by the witnesses and counterexamples -/

/-- A buffer whose single header token matches two distinct editing-software
names inside a metadata-context token. -/
def exampleStrongMetadataBuffer : List Nat :=
  strBytes "software: photoshop gimp"

/-- A minimal JPEG (SOI marker, no APP1/Exif data, no header tokens). -/
def exampleJpegNoExif : List Nat :=
  [0xFF, 0xD8, 0x00, 0x00]

/-- A non-JPEG (UNKNOWN-format) buffer with three SOI byte pairs. -/
def exampleManyMarkers : List Nat :=
  [0x00, 0x00, 0xFF, 0xD8, 0xFF, 0xD8, 0xFF, 0xD8]

/-- A JPEG whose header tokens carry two distinct quality values. -/
def exampleJpegTwoQualities : List Nat :=
  [0xFF, 0xD8] ++ strBytes "quality=60" ++ [0] ++ strBytes "quality=95"

/-- A JPEG whose header tokens carry the same quality value twice. -/
def exampleJpegSameQuality : List Nat :=
  [0xFF, 0xD8] ++ strBytes "quality=90" ++ [0] ++ strBytes "quality=90"

/-- A parsed backend response reporting only `clonedRegions`. -/
def sampleClonedAnalysis : BackendAnalysis :=
  ⟨some "cloned area", none, none, none, none, none⟩

/-- A tiny signal-free buffer. -/
def tinyBuffer : List Nat :=
  [1, 2, 3]

/-- Two critical `addEvidence` calls in two distinct categories. -/
def exampleDualCriticalCalls : List (String × String × Severity) :=
  [("metadata", "editing-software", .critical), ("compression", "quality", .critical)]

/-! # Theorems -/

/-! ## Confidence bounds (C1) -/

theorem clamp_bounds (x : Int) : 0 ≤ max 0 (min 100 x) ∧ max 0 (min 100 x) ≤ 100 := by
  refine ⟨le_max_left 0 _, ?_⟩
  rcases le_total (0 : Int) (min 100 x) with h | h
  · rw [max_eq_right h]
    exact min_le_left _ _
  · rw [max_eq_left h]
    norm_num

theorem verdict_confidence_bounds (st : AnalysisState) :
    0 ≤ (verdictPhase st).confidence ∧ (verdictPhase st).confidence ≤ 100 := by
  obtain ⟨h1, h2⟩ := clamp_bounds st.confidence
  unfold verdictPhase
  dsimp only
  split
  · split
    · omega
    · exact ⟨h1, h2⟩
  · exact ⟨h1, h2⟩

/-- C1: for every input — any decode outcome of the base64 payload (including
the failing decode that takes the `catch` path), any byte sequence, any
credential state and any set of backend responses — the `confidence` of the
returned `AnalysisResult` lies in `[0, 100]`.  Confidence is an `Int` in the
embedding because every operation of the source keeps it integral. -/
theorem c1_confidence_always_in_range (decoded : Option (List Nat)) (apiKeyPresent : Bool)
    (backends : List (String × BackendOutcome)) :
    0 ≤ (analyzeImage decoded apiKeyPresent backends).confidence ∧
      (analyzeImage decoded apiKeyPresent backends).confidence ≤ 100 := by
  cases decoded with
  | none => refine ⟨?_, ?_⟩ <;> norm_num [analyzeImage]
  | some binaryData => exact verdict_confidence_bounds _

/-! ## AI signal severity (C4) -/

/-- C4: the ledger signal emitted for a merged AI category is critical exactly
when the intrinsic base severity of the category is critical AND two or more
distinct backends reported it; in particular a single-backend report always
yields a warning signal, whatever the base severity. -/
theorem c4_ai_signal_severity (st : AnalysisState) (key : AIFindingKey)
    (detail : AggregatedAIFinding) :
    (aiStep st key detail).ledger =
      addEvidence st.ledger "ai" (aiKeyName key)
        (if baseSeverity key = Severity.critical ∧ 2 ≤ detail.models.length
         then Severity.critical else Severity.warning) := by
  unfold aiStep
  dsimp only
  by_cases h : detail.models.length ≥ 2 <;> cases key <;>
    simp [baseSeverity, h, Nat.not_le.mp, le_of_lt]

/-! ## EXIF handling (C5) -/

/-- C5 counterexample: on a JPEG without EXIF data the check fires — a
warning finding, a deduction of exactly 10, `metadataInconsistencies` set —
but, contrary to the claim, NO signal is recorded in the evidence ledger: the
ledger stays empty, in particular the `metadata` category is absent. -/
theorem c5_counterexample :
    detectImageFormat exampleJpegNoExif = ImageFormat.JPEG ∧
    checkExifPresence exampleJpegNoExif = false ∧
    (scanPhase exampleJpegNoExif).findings = [⟨FindingType.warning, exifMissingMessage⟩] ∧
    (scanPhase exampleJpegNoExif).confidence = 90 ∧
    (scanPhase exampleJpegNoExif).metadataInconsistencies = true ∧
    hasCategory (scanPhase exampleJpegNoExif).ledger "metadata" = false ∧
    (scanPhase exampleJpegNoExif).ledger.entries = [] := by
  decide

/-- C5 (amended): on a JPEG without the APP1/Exif pattern the analysis emits
a warning finding, deducts exactly 10 confidence points and sets the
`metadataInconsistencies` flag, but records no evidence-ledger signal (the
ledger passes through unchanged); for a non-JPEG format the EXIF check does
not fire at all. -/
theorem c5_amended_exif_no_ledger_signal (format : ImageFormat) (hasExif : Bool)
    (st : AnalysisState) :
    (format = ImageFormat.JPEG → hasExif = false →
      exifStep format hasExif st =
        { st with
          findings := st.findings ++ [⟨FindingType.warning, exifMissingMessage⟩],
          confidence := st.confidence - 10,
          metadataInconsistencies := true }) ∧
    (exifStep format hasExif st).ledger = st.ledger ∧
    (format ≠ ImageFormat.JPEG → exifStep format hasExif st = st) := by
  refine ⟨fun h1 h2 => ?_, ?_, fun h1 => ?_⟩
  · simp [exifStep, h1, h2]
  · unfold exifStep
    split <;> rfl
  · simp [exifStep, h1]

theorem c5_witness :
    exifStep ImageFormat.JPEG false initialState =
      { initialState with
        findings := initialState.findings ++ [⟨FindingType.warning, exifMissingMessage⟩],
        confidence := initialState.confidence - 10,
        metadataInconsistencies := true } :=
  (c5_amended_exif_no_ledger_signal ImageFormat.JPEG false initialState).1 rfl rfl

/-! ## Warning-only confidence floor (C6) -/

theorem entry_critical_le (category : String) (entries : List (String × EvidenceEntry)) :
    (match getEntry category entries with
      | some e => e.critical.length
      | none => 0) ≤ (entries.map (fun p => p.2.critical.length)).sum := by
  induction entries with
  | nil => simp [getEntry]
  | cons p rest ih =>
      obtain ⟨c, e⟩ := p
      by_cases h : c = category <;> simp [getEntry, h] <;> omega

theorem aiCriticalCount_le (st : Ledger) :
    aiCriticalCount st ≤ getEvidenceCount st .critical := by
  unfold aiCriticalCount getEvidenceCount
  exact entry_critical_le "ai" st.entries

/-- C6: whenever `editingLikely` is false and the ledger holds no critical
evidence, the final confidence is at least 65 (the warning-only deduction cap
of 35), and — because the floor is applied before the authenticity
comparison, whose threshold is 60 in this branch — the result is always
marked authentic. -/
theorem c6_warning_only_floor (st : AnalysisState)
    (h1 : computeEditingLikely st.ledger st.highConfidenceAICritical = false)
    (h2 : getEvidenceCount st.ledger .critical = 0) :
    65 ≤ (verdictPhase st).confidence ∧ (verdictPhase st).authentic = true := by
  have hai : aiCriticalCount st.ledger = 0 := by
    have := aiCriticalCount_le st.ledger
    omega
  obtain ⟨hc1, hc2⟩ := clamp_bounds st.confidence
  simp only [verdictPhase, h1, hai, h2]
  norm_num
  split <;> constructor <;> omega

theorem c6_witness :
    computeEditingLikely (scanPhase exampleJpegNoExif).ledger
        (scanPhase exampleJpegNoExif).highConfidenceAICritical = false ∧
    getEvidenceCount (scanPhase exampleJpegNoExif).ledger .critical = 0 ∧
    65 ≤ (verdictPhase (scanPhase exampleJpegNoExif)).confidence ∧
    (verdictPhase (scanPhase exampleJpegNoExif)).authentic = true :=
  ⟨by decide, by decide,
    (c6_warning_only_floor (scanPhase exampleJpegNoExif) (by decide) (by decide)).1,
    (c6_warning_only_floor (scanPhase exampleJpegNoExif) (by decide) (by decide)).2⟩

/-! ## Backend failure isolation (C7) -/

theorem collectAnalyses_no_throw (backends : List (String × BackendOutcome))
    (h : ∀ p ∈ backends, p.2 ≠ BackendOutcome.throwsNetwork) :
    collectAnalyses backends = some (okAnalyses backends) := by
  induction backends with
  | nil => rfl
  | cons p rest ih =>
      obtain ⟨m, o⟩ := p
      have ho : o ≠ BackendOutcome.throwsNetwork := h (m, o) (List.mem_cons_self _ _)
      have hrest := ih (fun q hq => h q (List.mem_cons_of_mem _ hq))
      cases o <;> simp_all [collectAnalyses, okAnalyses]

theorem okAnalyses_filter (backends : List (String × BackendOutcome)) :
    okAnalyses (backends.filter (fun p => outcomeIsOk p.2)) = okAnalyses backends := by
  induction backends with
  | nil => rfl
  | cons p rest ih =>
      obtain ⟨m, o⟩ := p
      cases o <;> simp_all [okAnalyses, outcomeIsOk]

theorem filter_ok_no_throw (backends : List (String × BackendOutcome)) :
    ∀ p ∈ backends.filter (fun p => outcomeIsOk p.2), p.2 ≠ BackendOutcome.throwsNetwork := by
  intro p hp
  have := (List.mem_filter.mp hp).2
  cases h : p.2 <;> simp_all [outcomeIsOk]

/-- C7 counterexample: a thrown fetch error for the first backend DOES abort
the remaining backends — the whole AI analysis returns `null` and the second
backend, which parses successfully on its own, is not aggregated; the second
conjunct shows what its aggregation alone would have produced. -/
theorem c7_counterexample :
    performAIVisualAnalysis true
        [("model-a", BackendOutcome.throwsNetwork),
         ("model-b", BackendOutcome.ok sampleClonedAnalysis)] = none ∧
    performAIVisualAnalysis true [("model-b", BackendOutcome.ok sampleClonedAnalysis)] =
      some ⟨some ⟨"cloned area", ["model-b"]⟩, none, none, none, none, none⟩ := by
  constructor
  · rfl
  · decide

/-- C7 (amended): a backend failing with a non-success HTTP status, missing
content, or unparsable JSON is excluded without affecting the others — the
result equals that of running only the successfully parsed backends.  (A
thrown network error instead aborts the whole analysis through the outer
`catch`; see the counterexample.) -/
theorem c7_amended_nonthrow_failures_isolated (backends : List (String × BackendOutcome))
    (h : ∀ p ∈ backends, p.2 ≠ BackendOutcome.throwsNetwork) :
    performAIVisualAnalysis true backends =
      performAIVisualAnalysis true (backends.filter (fun p => outcomeIsOk p.2)) := by
  unfold performAIVisualAnalysis
  rw [collectAnalyses_no_throw backends h,
    collectAnalyses_no_throw _ (filter_ok_no_throw backends), okAnalyses_filter]

theorem c7_witness :
    (∀ p ∈ [("model-a", BackendOutcome.httpError),
            ("model-b", BackendOutcome.ok sampleClonedAnalysis)],
        p.2 ≠ BackendOutcome.throwsNetwork) ∧
    performAIVisualAnalysis true
        [("model-a", BackendOutcome.httpError),
         ("model-b", BackendOutcome.ok sampleClonedAnalysis)] =
      performAIVisualAnalysis true
        ([("model-a", BackendOutcome.httpError),
          ("model-b", BackendOutcome.ok sampleClonedAnalysis)].filter
          (fun p => outcomeIsOk p.2)) :=
  ⟨by decide, c7_amended_nonthrow_failures_isolated _ (by decide)⟩

/-! ## All backends failing (C8) -/

theorem collectAnalyses_all_fail (backends : List (String × BackendOutcome))
    (h : ∀ p ∈ backends, outcomeIsOk p.2 = false) :
    collectAnalyses backends = none ∨ collectAnalyses backends = some [] := by
  induction backends with
  | nil => exact Or.inr rfl
  | cons p rest ih =>
      obtain ⟨m, o⟩ := p
      have ho := h (m, o) (List.mem_cons_self _ _)
      have hrest := ih (fun q hq => h q (List.mem_cons_of_mem _ hq))
      cases o <;> simp_all [collectAnalyses, outcomeIsOk]

theorem performAI_all_fail (apiKeyPresent : Bool) (backends : List (String × BackendOutcome))
    (h : ∀ p ∈ backends, outcomeIsOk p.2 = false) :
    performAIVisualAnalysis apiKeyPresent backends = none := by
  cases apiKeyPresent with
  | false => rfl
  | true =>
      unfold performAIVisualAnalysis
      rcases collectAnalyses_all_fail backends h with hc | hc <;> rw [hc] <;> rfl

/-- C8: when every configured backend fails (any mix of thrown errors,
non-success statuses, missing content or unparsable JSON) — or when the
gateway credential is absent — the AI phase contributes no evidence and the
returned `AnalysisResult` is exactly the one a Scanner-only run on the same
bytes produces; in particular the findings lists coincide. -/
theorem c8_all_backends_fail_scanner_only (bytes : List Nat) (apiKeyPresent : Bool)
    (backends : List (String × BackendOutcome))
    (h : ∀ p ∈ backends, outcomeIsOk p.2 = false) :
    analyzeImage (some bytes) apiKeyPresent backends = analyzeImage (some bytes) false [] ∧
    (analyzeImage (some bytes) apiKeyPresent backends).findings =
      (analyzeImage (some bytes) false []).findings := by
  have heq : analyzeImage (some bytes) apiKeyPresent backends = analyzeImage (some bytes) false [] := by
    unfold analyzeImage
    rw [performAI_all_fail apiKeyPresent backends h]
    rfl
  exact ⟨heq, by rw [heq]⟩

theorem c8_witness :
    (∀ p ∈ [("m", BackendOutcome.httpError), ("m2", BackendOutcome.throwsNetwork)],
        outcomeIsOk p.2 = false) ∧
    analyzeImage (some tinyBuffer) true
        [("m", BackendOutcome.httpError), ("m2", BackendOutcome.throwsNetwork)] =
      analyzeImage (some tinyBuffer) false [] :=
  ⟨by decide,
    (c8_all_backends_fail_scanner_only tinyBuffer true _ (by decide)).1⟩

/-! ## JPEG quality inconsistency (C9) -/

theorem distinctCount_le_length (l : List Nat) : distinctCount l ≤ l.length := by
  induction l with
  | nil => simp [distinctCount]
  | cons x xs ih => by_cases h : x ∈ xs <;> simp [distinctCount, h] <;> omega

/-- C9: on a JPEG, the quality-inconsistency check fires exactly when the
header tokens yield two or more distinct numeric quality values (so two
occurrences of one value do not fire it), and when it fires the step adds the
critical finding, deducts exactly 25 points and records the critical
`compression`/`quality` ledger signal. -/
theorem c9_jpeg_quality_check (data : List Nat) (st : AnalysisState)
    (h : detectImageFormat data = ImageFormat.JPEG) :
    (analyzeJPEG data = true ↔ 2 ≤ distinctCount (jpegQualityValues data)) ∧
    formatSpecificStep (detectImageFormat data) data st =
      (if analyzeJPEG data then
        { st with
          compressionAnomalies := true,
          jpegQualityInconsistent := true,
          findings := st.findings ++ [⟨FindingType.critical, jpegQualityMessage⟩],
          confidence := st.confidence - 25,
          ledger := addEvidence st.ledger "compression" "quality" Severity.critical }
       else st) := by
  constructor
  · unfold analyzeJPEG
    have := distinctCount_le_length (jpegQualityValues data)
    simp only [Bool.and_eq_true, decide_eq_true_eq]
    omega
  · rw [h]
    unfold formatSpecificStep
    simp

theorem c9_witness :
    detectImageFormat exampleJpegTwoQualities = ImageFormat.JPEG ∧
    jpegQualityValues exampleJpegTwoQualities = [60, 95] ∧
    analyzeJPEG exampleJpegTwoQualities = true ∧
    jpegQualityValues exampleJpegSameQuality = [90, 90] ∧
    analyzeJPEG exampleJpegSameQuality = false ∧
    (analyzeJPEG exampleJpegTwoQualities = true ↔
      2 ≤ distinctCount (jpegQualityValues exampleJpegTwoQualities)) :=
  ⟨by decide, by decide, by decide, by decide, by decide,
    (c9_jpeg_quality_check exampleJpegTwoQualities initialState (by decide)).1⟩

/-! ## Step bookkeeping lemmas

Every block of `analyzeImage` only appends to `findings`, and only the
recompression and JPEG-quality blocks touch `compressionAnomalies` (both set
it to `true`).  These lemmas push facts established mid-scan through to the
final result. -/

theorem exifStep_findings (format : ImageFormat) (hasExif : Bool) (st : AnalysisState) :
    ∃ l, (exifStep format hasExif st).findings = st.findings ++ l := by
  unfold exifStep
  split
  · exact ⟨_, rfl⟩
  · exact ⟨[], (List.append_nil _).symm⟩

theorem softwareStep_findings (s : List String) (strong : Bool) (st : AnalysisState) :
    ∃ l, (softwareStep s strong st).findings = st.findings ++ l := by
  unfold softwareStep
  dsimp only
  split
  · split
    · exact ⟨_, rfl⟩
    · exact ⟨_, rfl⟩
  · exact ⟨[], (List.append_nil _).symm⟩

theorem recompressionStep_findings (d : Bool) (st : AnalysisState) :
    ∃ l, (recompressionStep d st).findings = st.findings ++ l := by
  unfold recompressionStep
  split
  · exact ⟨_, rfl⟩
  · exact ⟨[], (List.append_nil _).symm⟩

theorem formatSpecificStep_findings (format : ImageFormat) (data : List Nat)
    (st : AnalysisState) :
    ∃ l, (formatSpecificStep format data st).findings = st.findings ++ l := by
  unfold formatSpecificStep
  split
  · split
    · exact ⟨_, rfl⟩
    · exact ⟨[], (List.append_nil _).symm⟩
  · split
    · split
      · exact ⟨_, rfl⟩
      · exact ⟨[], (List.append_nil _).symm⟩
    · exact ⟨[], (List.append_nil _).symm⟩

theorem stackedStep_findings (format : ImageFormat) (r : Bool) (st : AnalysisState) :
    ∃ l, (stackedStep format r st).findings = st.findings ++ l := by
  unfold stackedStep
  split
  · exact ⟨_, rfl⟩
  · exact ⟨[], (List.append_nil _).symm⟩

theorem appSignatureStep_findings (a : List String) (strong : Bool) (st : AnalysisState) :
    ∃ l, (appSignatureStep a strong st).findings = st.findings ++ l := by
  unfold appSignatureStep
  dsimp only
  split
  · split
    · exact ⟨_, rfl⟩
    · exact ⟨_, rfl⟩
  · exact ⟨[], (List.append_nil _).symm⟩

theorem aiStep_findings (st : AnalysisState) (key : AIFindingKey)
    (detail : AggregatedAIFinding) :
    ∃ l, (aiStep st key detail).findings = st.findings ++ l := by
  unfold aiStep
  dsimp only
  rw [apply_ite (fun s : AnalysisState => s.findings)]
  rw [ite_self]
  exact ⟨_, rfl⟩

theorem aiFold_findings (entries : List (AIFindingKey × AggregatedAIFinding))
    (st : AnalysisState) :
    ∃ l, (entries.foldl (fun s p => aiStep s p.1 p.2) st).findings = st.findings ++ l := by
  induction entries generalizing st with
  | nil => exact ⟨[], (List.append_nil _).symm⟩
  | cons p rest ih =>
      obtain ⟨l1, hl1⟩ := aiStep_findings st p.1 p.2
      obtain ⟨l2, hl2⟩ := ih (aiStep st p.1 p.2)
      exact ⟨l1 ++ l2, by simp [List.foldl_cons, hl2, hl1]⟩

theorem aiPhase_findings (st : AnalysisState) (ai : Option AIVisualAnalysis) :
    ∃ l, (aiPhase st ai).findings = st.findings ++ l := by
  cases ai with
  | none => exact ⟨[], (List.append_nil _).symm⟩
  | some a => exact aiFold_findings (aiEntries a) st

theorem exists_append_of_ite {α : Type} (c : Prop) [Decidable c] (base x : List α) :
    ∃ l, (if c then base ++ x else base) = base ++ l := by
  by_cases h : c
  · rw [if_pos h]
    exact ⟨x, rfl⟩
  · rw [if_neg h]
    exact ⟨[], (List.append_nil _).symm⟩

theorem verdictPhase_findings (st : AnalysisState) :
    ∃ l, (verdictPhase st).findings = st.findings ++ l := by
  unfold verdictPhase
  dsimp only
  exact exists_append_of_ite _ _ _

theorem exifStep_compressionAnomalies (format : ImageFormat) (hasExif : Bool)
    (st : AnalysisState) :
    (exifStep format hasExif st).compressionAnomalies = st.compressionAnomalies := by
  unfold exifStep
  split <;> rfl

theorem softwareStep_compressionAnomalies (s : List String) (strong : Bool)
    (st : AnalysisState) :
    (softwareStep s strong st).compressionAnomalies = st.compressionAnomalies := by
  unfold softwareStep
  dsimp only
  split
  · split <;> rfl
  · rfl

theorem formatSpecificStep_compressionAnomalies (format : ImageFormat) (data : List Nat)
    (st : AnalysisState) (h : st.compressionAnomalies = true) :
    (formatSpecificStep format data st).compressionAnomalies = true := by
  unfold formatSpecificStep
  split
  · split <;> exact h
  · split
    · split
      · rfl
      · exact h
    · exact h

theorem stackedStep_compressionAnomalies (format : ImageFormat) (r : Bool)
    (st : AnalysisState) :
    (stackedStep format r st).compressionAnomalies = st.compressionAnomalies := by
  unfold stackedStep
  split <;> rfl

theorem appSignatureStep_compressionAnomalies (a : List String) (strong : Bool)
    (st : AnalysisState) :
    (appSignatureStep a strong st).compressionAnomalies = st.compressionAnomalies := by
  unfold appSignatureStep
  dsimp only
  split
  · split <;> rfl
  · rfl

theorem aiStep_compressionAnomalies (st : AnalysisState) (key : AIFindingKey)
    (detail : AggregatedAIFinding) :
    (aiStep st key detail).compressionAnomalies = st.compressionAnomalies := by
  unfold aiStep
  dsimp only
  rw [apply_ite (fun s : AnalysisState => s.compressionAnomalies)]
  dsimp only
  rw [ite_self]

theorem aiPhase_compressionAnomalies (st : AnalysisState) (ai : Option AIVisualAnalysis) :
    (aiPhase st ai).compressionAnomalies = st.compressionAnomalies := by
  cases ai with
  | none => rfl
  | some a =>
      show ((aiEntries a).foldl (fun s p => aiStep s p.1 p.2) st).compressionAnomalies =
        st.compressionAnomalies
      induction aiEntries a generalizing st with
      | nil => rfl
      | cons p rest ih =>
          rw [List.foldl_cons, ih, aiStep_compressionAnomalies]

theorem verdictPhase_compressionAnomalies (st : AnalysisState) :
    (verdictPhase st).metadata.compressionAnomalies = st.compressionAnomalies := rfl

/-! ## Recompression check (C10) -/

theorem scanPhase_recompression_effects (data : List Nat)
    (hdet : detectRecompression data = true) :
    (scanPhase data).compressionAnomalies = true ∧
      Finding.mk FindingType.warning recompressionMessage ∈ (scanPhase data).findings := by
  unfold scanPhase
  dsimp only
  rw [hdet]
  constructor
  · rw [appSignatureStep_compressionAnomalies, stackedStep_compressionAnomalies]
    apply formatSpecificStep_compressionAnomalies
    simp [recompressionStep]
  · obtain ⟨l4, hl4⟩ := appSignatureStep_findings (detectAppSignatures data) (strongMetadata data) _
    rw [hl4]
    refine List.mem_append_left _ ?_
    obtain ⟨l3, hl3⟩ := stackedStep_findings (detectImageFormat data) true _
    rw [hl3]
    refine List.mem_append_left _ ?_
    obtain ⟨l2, hl2⟩ := formatSpecificStep_findings (detectImageFormat data) data _
    rw [hl2]
    refine List.mem_append_left _ ?_
    simp [recompressionStep]

/-- C10: on any buffer with more than two `0xFF 0xD8` pairs — whatever the
detected format, including PNG and UNKNOWN — the recompression check fires:
the step appends the warning finding, sets `compressionAnomalies`, deducts
exactly 15 points and records the warning `compression` signal; the flag and
the finding reach the returned result.  Only the stacked-compression critical
signal is gated on the JPEG format (last conjunct). -/
theorem c10_recompression_ungated (data : List Nat) (apiKeyPresent : Bool)
    (backends : List (String × BackendOutcome)) (h : 2 < countJpegMarkers data) :
    (∀ st : AnalysisState,
      recompressionStep (detectRecompression data) st =
        { st with
          compressionAnomalies := true,
          findings := st.findings ++ [⟨FindingType.warning, recompressionMessage⟩],
          confidence := st.confidence - 15,
          ledger := addEvidence st.ledger "compression" "recompression" Severity.warning }) ∧
    (analyzeImage (some data) apiKeyPresent backends).metadata.compressionAnomalies = true ∧
    Finding.mk FindingType.warning recompressionMessage ∈
      (analyzeImage (some data) apiKeyPresent backends).findings ∧
    (∀ (format : ImageFormat) (r : Bool) (st : AnalysisState),
      format ≠ ImageFormat.JPEG → stackedStep format r st = st) := by
  have hdet : detectRecompression data = true := by simp [detectRecompression, h]
  obtain ⟨hA, hF⟩ := scanPhase_recompression_effects data hdet
  refine ⟨fun st => ?_, ?_, ?_, fun format r st hne => ?_⟩
  · rw [hdet]
    simp [recompressionStep]
  · unfold analyzeImage
    rw [verdictPhase_compressionAnomalies, aiPhase_compressionAnomalies]
    exact hA
  · unfold analyzeImage
    obtain ⟨lv, hlv⟩ := verdictPhase_findings
      (aiPhase (scanPhase data) (performAIVisualAnalysis apiKeyPresent backends))
    rw [hlv]
    refine List.mem_append_left _ ?_
    obtain ⟨la, hla⟩ := aiPhase_findings (scanPhase data)
      (performAIVisualAnalysis apiKeyPresent backends)
    rw [hla]
    exact List.mem_append_left _ hF
  · unfold stackedStep
    rw [if_neg]
    rintro ⟨hf, -⟩
    exact hne hf

theorem c10_witness :
    2 < countJpegMarkers exampleManyMarkers ∧
    detectImageFormat exampleManyMarkers = ImageFormat.UNKNOWN ∧
    (analyzeImage (some exampleManyMarkers) false []).metadata.compressionAnomalies = true :=
  ⟨by decide, by decide,
    (c10_recompression_ungated exampleManyMarkers false [] (by decide)).2.1⟩

/-! ## Metadata-only strong evidence (C2) -/

theorem exifStep_highAI (format : ImageFormat) (hasExif : Bool) (st : AnalysisState) :
    (exifStep format hasExif st).highConfidenceAICritical = st.highConfidenceAICritical := by
  unfold exifStep
  split <;> rfl

theorem softwareStep_highAI (s : List String) (strong : Bool) (st : AnalysisState) :
    (softwareStep s strong st).highConfidenceAICritical = st.highConfidenceAICritical := by
  unfold softwareStep
  dsimp only
  split
  · split <;> rfl
  · rfl

theorem recompressionStep_highAI (d : Bool) (st : AnalysisState) :
    (recompressionStep d st).highConfidenceAICritical = st.highConfidenceAICritical := by
  unfold recompressionStep
  split <;> rfl

theorem formatSpecificStep_highAI (format : ImageFormat) (data : List Nat)
    (st : AnalysisState) :
    (formatSpecificStep format data st).highConfidenceAICritical =
      st.highConfidenceAICritical := by
  unfold formatSpecificStep
  split
  · split <;> rfl
  · split
    · split <;> rfl
    · rfl

theorem stackedStep_highAI (format : ImageFormat) (r : Bool) (st : AnalysisState) :
    (stackedStep format r st).highConfidenceAICritical = st.highConfidenceAICritical := by
  unfold stackedStep
  split <;> rfl

theorem appSignatureStep_highAI (a : List String) (strong : Bool) (st : AnalysisState) :
    (appSignatureStep a strong st).highConfidenceAICritical = st.highConfidenceAICritical := by
  unfold appSignatureStep
  dsimp only
  split
  · split <;> rfl
  · rfl

/-- No phase-1 block touches the phase-2 flag. -/
theorem scanPhase_highAI (data : List Nat) :
    (scanPhase data).highConfidenceAICritical = false := by
  unfold scanPhase
  dsimp only
  rw [appSignatureStep_highAI, stackedStep_highAI, formatSpecificStep_highAI,
    recompressionStep_highAI, softwareStep_highAI, exifStep_highAI]
  rfl

theorem exifStep_ledger (format : ImageFormat) (hasExif : Bool) (st : AnalysisState) :
    (exifStep format hasExif st).ledger = st.ledger := by
  unfold exifStep
  split <;> rfl

theorem softwareStep_nil (strong : Bool) (st : AnalysisState) :
    softwareStep [] strong st = st := by
  simp [softwareStep]

theorem appSignatureStep_nil (strong : Bool) (st : AnalysisState) :
    appSignatureStep [] strong st = st := by
  simp [appSignatureStep]

theorem softwareStep_critical_ledger (e : String) (es : List String) (st : AnalysisState) :
    (softwareStep (e :: es) true st).ledger =
      addEvidence st.ledger "metadata" "editing-software" Severity.critical := by
  simp [softwareStep]

theorem softwareStep_critical_editing (e : String) (es : List String) (st : AnalysisState) :
    (softwareStep (e :: es) true st).editingDetected = true := by
  simp [softwareStep]

theorem appSignatureStep_critical_ledger (a : String) (as : List String) (st : AnalysisState) :
    (appSignatureStep (a :: as) true st).ledger =
      addEvidence st.ledger "metadata" "app-signature" Severity.critical := by
  simp [appSignatureStep]

theorem appSignatureStep_critical_editing (a : String) (as : List String) (st : AnalysisState) :
    (appSignatureStep (a :: as) true st).editingDetected = true := by
  simp [appSignatureStep]

/-- C2 counterexample: a concrete buffer with two distinct editing-software
names in a metadata-context header token, no evidence in any other category,
and no AI evidence — the claim asserts the returned result has
`metadata.editingDetected = true`, but the code realigns `editingDetected`
to `editingLikely` at line 365 and returns `false`. -/
theorem c2_counterexample :
    1 < (detectEditingSoftware exampleStrongMetadataBuffer).length +
        (detectAppSignatures exampleStrongMetadataBuffer).length ∧
    (scanPhase exampleStrongMetadataBuffer).editingDetected = true ∧
    (analyzeImage (some exampleStrongMetadataBuffer) false []).metadata.editingDetected
      = false := by
  exact ⟨by decide, by decide, by decide⟩

/-- C2 (amended): with two or more distinct signature names (strong metadata
evidence), no evidence from any other scanner category and no AI evidence,
the scan sets the provisional `editingDetected` flag to `true` and records
critical metadata signals, and `editingLikely` stays `false` (metadata-only
corroboration never crosses it); but the `metadata.editingDetected` field of
the returned result — realigned to `editingLikely` by the verdict engine —
is `false`, not `true` as the claim stated. -/
theorem c2_amended_metadata_only (data : List Nat)
    (hstrong : 1 < (detectEditingSoftware data).length + (detectAppSignatures data).length)
    (hre : detectRecompression data = false)
    (hpng : detectImageFormat data = ImageFormat.PNG → analyzePNG data = false)
    (hjpg : detectImageFormat data = ImageFormat.JPEG → analyzeJPEG data = false) :
    (scanPhase data).editingDetected = true ∧
    computeEditingLikely (scanPhase data).ledger (scanPhase data).highConfidenceAICritical
      = false ∧
    (analyzeImage (some data) false []).metadata.editingDetected = false := by
  have hstrongb : strongMetadata data = true := by
    unfold strongMetadata
    simpa using hstrong
  have hfmt : ∀ st, formatSpecificStep (detectImageFormat data) data st = st := by
    intro st
    unfold formatSpecificStep
    cases hf : detectImageFormat data with
    | PNG => simp [hpng hf]
    | JPEG => simp [hjpg hf]
    | UNKNOWN => simp
  have hrec : ∀ st : AnalysisState, recompressionStep (detectRecompression data) st = st := by
    intro st
    rw [hre]
    rfl
  have hstk : ∀ st : AnalysisState,
      stackedStep (detectImageFormat data) (detectRecompression data) st = st := by
    intro st
    rw [hre]
    unfold stackedStep
    rw [if_neg]
    rintro ⟨-, h2, -⟩
    exact Bool.false_ne_true h2
  have hscan : scanPhase data =
      appSignatureStep (detectAppSignatures data) (strongMetadata data)
        (softwareStep (detectEditingSoftware data) (strongMetadata data)
          (exifStep (detectImageFormat data) (checkExifPresence data) initialState)) := by
    unfold scanPhase
    dsimp only
    rw [hrec, hfmt, hstk]
  have hbase : (exifStep (detectImageFormat data) (checkExifPresence data) initialState).ledger
      = Ledger.mk [] 0 := exifStep_ledger _ _ _
  have hmain : (scanPhase data).editingDetected = true ∧
      computeEditingLikely (scanPhase data).ledger false = false := by
    rcases hE : detectEditingSoftware data with _ | ⟨e, es⟩
    · rcases hA : detectAppSignatures data with _ | ⟨a, as⟩
      · rw [hE, hA] at hstrong
        simp at hstrong
      · rw [hscan, hstrongb, hE, hA, softwareStep_nil]
        refine ⟨appSignatureStep_critical_editing _ _ _, ?_⟩
        rw [appSignatureStep_critical_ledger, hbase]
        decide
    · rw [hscan, hstrongb, hE]
      rcases hA : detectAppSignatures data with _ | ⟨a, as⟩
      · rw [appSignatureStep_nil]
        refine ⟨softwareStep_critical_editing _ _ _, ?_⟩
        rw [softwareStep_critical_ledger, hbase]
        decide
      · refine ⟨appSignatureStep_critical_editing _ _ _, ?_⟩
        rw [appSignatureStep_critical_ledger, softwareStep_critical_ledger, hbase]
        decide
  refine ⟨hmain.1, ?_, ?_⟩
  · rw [scanPhase_highAI]
    exact hmain.2
  · have hvd : (analyzeImage (some data) false []).metadata.editingDetected =
        computeEditingLikely (scanPhase data).ledger (scanPhase data).highConfidenceAICritical
        := rfl
    rw [hvd, scanPhase_highAI]
    exact hmain.2

theorem c2_witness :
    (1 < (detectEditingSoftware exampleStrongMetadataBuffer).length +
        (detectAppSignatures exampleStrongMetadataBuffer).length) ∧
    detectRecompression exampleStrongMetadataBuffer = false ∧
    computeEditingLikely (scanPhase exampleStrongMetadataBuffer).ledger
      (scanPhase exampleStrongMetadataBuffer).highConfidenceAICritical = false :=
  ⟨by decide, by decide,
    (c2_amended_metadata_only exampleStrongMetadataBuffer (by decide) (by decide)
      (by decide) (by decide)).2.1⟩

/-! ## Two critical categories imply editingLikely (C3)

The spec attaches no risk-score condition to the two-critical-categories
disjunct, while the code guards it with `riskScore >= 30`.  The claim holds
because the weight table forces the guard: any reachable ledger whose
critical evidence spans two distinct categories has accumulated at least
14 + 16 = 30 risk points (metadata is the only named category with a
critical weight below 16, and distinct map keys occur at most once). -/

theorem critWeightSum_cons (p : String × EvidenceEntry) (rest : List (String × EvidenceEntry)) :
    critWeightSum (p :: rest) =
      (if 0 < p.2.critical.length then (severityWeights p.1).2 else 0) + critWeightSum rest := by
  simp [critWeightSum]

theorem setEntry_keys (category : String) (e : EvidenceEntry)
    (l : List (String × EvidenceEntry)) :
    (setEntry category e l).map Prod.fst =
      if category ∈ l.map Prod.fst then l.map Prod.fst
      else l.map Prod.fst ++ [category] := by
  induction l with
  | nil => simp [setEntry]
  | cons p rest ih =>
      obtain ⟨c, e0⟩ := p
      by_cases h : c = category
      · subst h
        simp [setEntry]
      · by_cases hm : category ∈ rest.map Prod.fst <;>
          simp [setEntry, h, ih, hm, Ne.symm h]

theorem critWeightSum_setEntry_le (category : String) (e : EvidenceEntry)
    (l : List (String × EvidenceEntry)) :
    critWeightSum (setEntry category e l) ≤
      critWeightSum l + (if 0 < e.critical.length then (severityWeights category).2 else 0) := by
  induction l with
  | nil =>
      rw [setEntry, critWeightSum_cons]
      simp [critWeightSum]
  | cons p rest ih =>
      obtain ⟨c, e0⟩ := p
      by_cases h : c = category
      · subst h
        rw [setEntry, if_pos rfl, critWeightSum_cons, critWeightSum_cons]
        dsimp only
        omega
      · rw [setEntry, if_neg h, critWeightSum_cons, critWeightSum_cons]
        dsimp only
        omega

theorem critWeightSum_setEntry_eq (category : String) (e : EvidenceEntry)
    (l : List (String × EvidenceEntry))
    (hsome : ∀ e0, getEntry category l = some e0 →
      (0 < e.critical.length ↔ 0 < e0.critical.length))
    (hnone : getEntry category l = none → e.critical.length = 0) :
    critWeightSum (setEntry category e l) = critWeightSum l := by
  induction l with
  | nil =>
      have hz := hnone rfl
      rw [setEntry, critWeightSum_cons]
      simp [critWeightSum, hz]
  | cons p rest ih =>
      obtain ⟨c, e0⟩ := p
      by_cases h : c = category
      · subst h
        have hiff := hsome e0 (by simp [getEntry])
        rw [setEntry, if_pos rfl, critWeightSum_cons, critWeightSum_cons]
        by_cases hc : 0 < e0.critical.length
        · rw [if_pos hc, if_pos (hiff.mpr hc)]
        · rw [if_neg hc, if_neg (fun hx => hc (hiff.mp hx))]
      · have hget : getEntry category ((c, e0) :: rest) = getEntry category rest := by
          simp [getEntry, h]
        rw [hget] at hsome hnone
        rw [setEntry, if_neg h, critWeightSum_cons, critWeightSum_cons, ih hsome hnone]

theorem addEvidence_inv (st : Ledger) (category signal : String) (sev : Severity)
    (hcat : isNamedCategory category) (hinv : LedgerInv st) :
    LedgerInv (addEvidence st category signal sev) := by
  obtain ⟨hnodup, hnamed, hrisk⟩ := hinv
  have hkeys := setEntry_keys category
    (addSignal ((getEntry category st.entries).getD ⟨[], []⟩) signal sev) st.entries
  refine ⟨?_, ?_, ?_⟩
  · show ((setEntry category _ st.entries).map Prod.fst).Nodup
    rw [hkeys]
    by_cases hm : category ∈ st.entries.map Prod.fst
    · rw [if_pos hm]
      exact hnodup
    · rw [if_neg hm]
      simp [List.nodup_append, hnodup, hm]
  · show ∀ c ∈ (setEntry category _ st.entries).map Prod.fst, isNamedCategory c
    rw [hkeys]
    by_cases hm : category ∈ st.entries.map Prod.fst
    · rw [if_pos hm]
      exact hnamed
    · rw [if_neg hm]
      intro c hc
      rcases List.mem_append.mp hc with hc | hc
      · exact hnamed c hc
      · rw [List.mem_singleton.mp hc]
        exact hcat
  · show critWeightSum (setEntry category _ st.entries) ≤ st.riskScore + weightFor category sev
    cases sev with
    | warning =>
        have heq : critWeightSum (setEntry category
            (addSignal ((getEntry category st.entries).getD ⟨[], []⟩) signal .warning)
            st.entries) = critWeightSum st.entries := by
          apply critWeightSum_setEntry_eq
          · intro e0 hget
            rw [hget]
            exact Iff.rfl
          · intro hget
            rw [hget]
            rfl
        rw [heq]
        exact le_trans hrisk (Nat.le_add_right _ _)
    | critical =>
        have hle := critWeightSum_setEntry_le category
          (addSignal ((getEntry category st.entries).getD ⟨[], []⟩) signal .critical) st.entries
        have hw : (if 0 < (addSignal ((getEntry category st.entries).getD ⟨[], []⟩)
            signal .critical).critical.length then (severityWeights category).2 else 0) ≤
            (severityWeights category).2 := by
          split <;> omega
        have hwf : weightFor category .critical = (severityWeights category).2 := rfl
        rw [hwf]
        omega

theorem buildLedger_foldl_inv (calls : List (String × String × Severity)) :
    ∀ st : Ledger, LedgerInv st → (∀ x ∈ calls, isNamedCategory x.1) →
      LedgerInv (calls.foldl (fun st c => addEvidence st c.1 c.2.1 c.2.2) st) := by
  induction calls with
  | nil => exact fun st hst _ => hst
  | cons c rest ih =>
      intro st hst hnamed
      rw [List.foldl_cons]
      exact ih _ (addEvidence_inv st c.1 c.2.1 c.2.2
          (hnamed c (List.mem_cons_self _ _)) hst)
        (fun x hx => hnamed x (List.mem_cons_of_mem _ hx))

theorem buildLedger_inv (calls : List (String × String × Severity))
    (hnamed : ∀ x ∈ calls, isNamedCategory x.1) : LedgerInv (buildLedger calls) := by
  refine buildLedger_foldl_inv calls ⟨[], 0⟩ ?_ hnamed
  exact ⟨List.nodup_nil, by simp, by simp [critWeightSum]⟩

theorem metadataHasCritical_mem (l : List (String × EvidenceEntry))
    (h : metadataHasCritical l = true) : "metadata" ∈ l.map Prod.fst := by
  unfold metadataHasCritical at h
  rw [List.any_eq_true] at h
  obtain ⟨p, hp, hpb⟩ := h
  rw [Bool.and_eq_true, beq_iff_eq] at hpb
  exact hpb.1 ▸ List.mem_map_of_mem Prod.fst hp

theorem critWeightSum_lower (l : List (String × EvidenceEntry))
    (hnodup : (l.map Prod.fst).Nodup)
    (hnamed : ∀ c ∈ l.map Prod.fst, isNamedCategory c) :
    16 * (l.filter (fun p => decide (0 < p.2.critical.length))).length ≤
      critWeightSum l + (if metadataHasCritical l then 2 else 0) := by
  induction l with
  | nil => simp [critWeightSum, metadataHasCritical]
  | cons p rest ih =>
      obtain ⟨c, e⟩ := p
      rw [List.map_cons, List.nodup_cons] at hnodup
      obtain ⟨hnotin, hnodup2⟩ := hnodup
      have hnamed2 : ∀ x ∈ rest.map Prod.fst, isNamedCategory x := by
        intro x hx
        exact hnamed x (by simp [hx])
      have ihr := ih hnodup2 hnamed2
      by_cases hcrit : 0 < e.critical.length
      · have hfil : ((c, e) :: rest).filter (fun p => decide (0 < p.2.critical.length)) =
            (c, e) :: rest.filter (fun p => decide (0 < p.2.critical.length)) := by
          simp [List.filter_cons, hcrit]
        have hc : isNamedCategory c := hnamed c (by simp)
        have hsum : critWeightSum ((c, e) :: rest) =
            (severityWeights c).2 + critWeightSum rest := by
          rw [critWeightSum_cons]
          dsimp only
          rw [if_pos hcrit]
        rcases hc with rfl | rfl | rfl | rfl
        · have hmr : metadataHasCritical rest = false := by
            cases hx : metadataHasCritical rest with
            | false => rfl
            | true => exact absurd (metadataHasCritical_mem rest hx) hnotin
          have hmc : metadataHasCritical (("metadata", e) :: rest) = true := by
            simp [metadataHasCritical, hcrit]
          have h14 : (severityWeights "metadata").2 = 14 := rfl
          rw [hfil, List.length_cons, hsum, h14, hmc, if_pos rfl]
          rw [hmr, if_neg Bool.false_ne_true] at ihr
          omega
        · have hb : (("compression" : String) == "metadata") = false := rfl
          have hmeq : metadataHasCritical (("compression", e) :: rest) =
              metadataHasCritical rest := by
            simp [metadataHasCritical, hb]
          have h18 : (severityWeights "compression").2 = 18 := rfl
          rw [hfil, List.length_cons, hsum, h18, hmeq]
          by_cases hmr : metadataHasCritical rest = true
          · rw [hmr, if_pos rfl] at ihr ⊢
            omega
          · have hmr2 : metadataHasCritical rest = false := by
              simpa using hmr
            rw [hmr2, if_neg Bool.false_ne_true] at ihr ⊢
            omega
        · have hb : (("format" : String) == "metadata") = false := rfl
          have hmeq : metadataHasCritical (("format", e) :: rest) =
              metadataHasCritical rest := by
            simp [metadataHasCritical, hb]
          have h16 : (severityWeights "format").2 = 16 := rfl
          rw [hfil, List.length_cons, hsum, h16, hmeq]
          by_cases hmr : metadataHasCritical rest = true
          · rw [hmr, if_pos rfl] at ihr ⊢
            omega
          · have hmr2 : metadataHasCritical rest = false := by
              simpa using hmr
            rw [hmr2, if_neg Bool.false_ne_true] at ihr ⊢
            omega
        · have hb : (("ai" : String) == "metadata") = false := rfl
          have hmeq : metadataHasCritical (("ai", e) :: rest) =
              metadataHasCritical rest := by
            simp [metadataHasCritical, hb]
          have h25 : (severityWeights "ai").2 = 25 := rfl
          rw [hfil, List.length_cons, hsum, h25, hmeq]
          by_cases hmr : metadataHasCritical rest = true
          · rw [hmr, if_pos rfl] at ihr ⊢
            omega
          · have hmr2 : metadataHasCritical rest = false := by
              simpa using hmr
            rw [hmr2, if_neg Bool.false_ne_true] at ihr ⊢
            omega
      · have hfil : ((c, e) :: rest).filter (fun p => decide (0 < p.2.critical.length)) =
            rest.filter (fun p => decide (0 < p.2.critical.length)) := by
          simp [List.filter_cons, hcrit]
        have hsum : critWeightSum ((c, e) :: rest) = critWeightSum rest := by
          rw [critWeightSum_cons]
          dsimp only
          rw [if_neg hcrit, Nat.zero_add]
        have hmeq : metadataHasCritical ((c, e) :: rest) = metadataHasCritical rest := by
          simp [metadataHasCritical, hcrit]
        rw [hfil, hsum, hmeq]
        exact ihr

/-- C3: in every reachable evidence-ledger state (a fold of the `addEvidence`
calls `analyzeImage` can make) where two or more distinct categories hold
critical evidence and `nonMetadataCategories ≥ 1`, the verdict engine sets
`editingLikely = true`: the risk-score gate `riskScore ≥ 30` on this disjunct
is implied by the weight table for all such states. -/
theorem c3_dual_critical_categories (calls : List (String × String × Severity))
    (hcalls : ∀ x ∈ calls, x ∈ emittableSignals)
    (hcrit : 2 ≤ getCategoryCount (buildLedger calls) (some Severity.critical))
    (hnm : 1 ≤ nonMetadataCategories (buildLedger calls))
    (flag : Bool) :
    computeEditingLikely (buildLedger calls) flag = true := by
  have hall : ∀ y ∈ emittableSignals, isNamedCategory y.1 := by
    intro y hy
    unfold isNamedCategory
    fin_cases hy <;> decide
  have hnamed : ∀ x ∈ calls, isNamedCategory x.1 :=
    fun x hx => hall x (hcalls x hx)
  obtain ⟨hnodup, hnamedk, hrisk⟩ := buildLedger_inv calls hnamed
  have hlow := critWeightSum_lower (buildLedger calls).entries hnodup hnamedk
  have hcount : getCategoryCount (buildLedger calls) (some Severity.critical) =
      ((buildLedger calls).entries.filter
        (fun p => decide (0 < p.2.critical.length))).length := rfl
  have hrisk30 : (buildLedger calls).riskScore ≥ 30 := by
    rw [hcount] at hcrit
    by_cases hm : metadataHasCritical (buildLedger calls).entries <;>
      simp only [hm, if_pos, if_neg, if_true, if_false, Bool.false_eq_true,
        not_false_eq_true] at hlow <;>
      omega
  have hA : (decide (getCategoryCount (buildLedger calls) (some Severity.critical) ≥ 2) &&
      decide (nonMetadataCategories (buildLedger calls) ≥ 1)) = true := by
    rw [Bool.and_eq_true, decide_eq_true_eq, decide_eq_true_eq]
    exact ⟨hcrit, hnm⟩
  have hB : decide ((buildLedger calls).riskScore ≥ 30) = true := by
    rw [decide_eq_true_eq]
    exact hrisk30
  unfold computeEditingLikely
  dsimp only
  rw [hA, hB]
  simp

theorem c3_witness :
    (∀ x ∈ exampleDualCriticalCalls, x ∈ emittableSignals) ∧
    2 ≤ getCategoryCount (buildLedger exampleDualCriticalCalls) (some Severity.critical) ∧
    1 ≤ nonMetadataCategories (buildLedger exampleDualCriticalCalls) ∧
    computeEditingLikely (buildLedger exampleDualCriticalCalls) false = true :=
  ⟨by decide, by decide, by decide,
    c3_dual_critical_categories exampleDualCriticalCalls (by decide) (by decide)
      (by decide) false⟩

end PayVerify
